import Mathlib

/-!
Verification of the paper-trading core of the kite-paper-trading-bot
repository.

The embedding models the simulation core over exact rationals (`ℚ`):

* `PaperBroker` with `buy`/`sell` embeds `src/broker/paper.py`.
* `SMACrossoverStrategy` with `generate_signal`, `get_required_periods`
  and `set_parameters` embeds `src/strategy/sma_crossover.py`; a data
  window is modelled by its `close` column, a `List ℚ`.  Pandas rolling
  means that are undefined (too little data) are modelled as `none`,
  and comparisons against an undefined mean are false, matching NaN
  comparison semantics.
* `riskCheck`/`riskPass` embed the stop-loss / take-profit block of
  `src/core/backtester.py` (lines 102-112) and `check_sl_tp` of
  `src/main.py`; the iteration runs over a snapshot of the positions
  map, as `list(broker.positions.items())` does.
* `stepCore`/`backtestStep` embed one iteration of the replay loop of
  `backtest` (`src/core/backtester.py` lines 93-128): the strategy
  signal is computed first, then the risk guard runs, then the signal
  is executed.  Besides the broker they return the CSV rows written by
  `log_trade_csv` during the step and an ordered trace of the
  observable events of the step (signal evaluation, risk-guard sells,
  strategy-driven trade execution).
-/

/-- A position of the paper broker: the `{qty, avg_price}` dict stored in
`PaperBroker.positions` (`src/broker/paper.py`). -/
structure Position where
  qty : ℚ
  avg_price : ℚ
deriving DecidableEq, Repr

/-- A ledger trade record, as appended to `PaperBroker.trades`:
`buy` appends the 4-tuple `("BUY", symbol, price, qty)`, `sell` appends
the 5-tuple `("SELL", symbol, price, qty, pnl)`. -/
inductive Trade where
  | buyRec (symbol : String) (price qty : ℚ)
  | sellRec (symbol : String) (price qty pnl : ℚ)
deriving DecidableEq, Repr

/-- The action tag of a ledger trade record: the first component of the
tuple appended by `PaperBroker.buy` / `PaperBroker.sell`. -/
def Trade.action : Trade → String
  | .buyRec _ _ _ => "BUY"
  | .sellRec _ _ _ _ => "SELL"

/-- The paper broker state (`src/broker/paper.py`): cash balance, the
positions dict (modelled as an association list keyed by symbol) and
the trade history. -/
structure PaperBroker where
  balance : ℚ
  positions : List (String × Position)
  trades : List Trade
deriving DecidableEq, Repr

/-- `PaperBroker.buy` (`src/broker/paper.py` lines 10-33): rejects the
order when `cost > balance` and returns `False` with the state
untouched; otherwise debits the balance, creates or updates the
position with the volume-weighted average price, appends a BUY trade
record, and returns `True`. -/
def PaperBroker.buy (b : PaperBroker) (symbol : String) (price qty : ℚ) :
    Bool × PaperBroker :=
  let cost := price * qty
  if cost > b.balance then (false, b)
  else
    let positions' :=
      match b.positions.lookup symbol with
      | some pos =>
          let total_qty := pos.qty + qty
          let avg_price := (pos.qty * pos.avg_price + qty * price) / total_qty
          b.positions.map fun p =>
            if p.1 == symbol then (symbol, ⟨total_qty, avg_price⟩) else p
      | none => b.positions ++ [(symbol, ⟨qty, price⟩)]
    (true,
     { balance := b.balance - cost
       positions := positions'
       trades := b.trades ++ [Trade.buyRec symbol price qty] })

/-- `PaperBroker.sell` (`src/broker/paper.py` lines 35-50): with no open
position returns pnl `0` and leaves the state untouched; otherwise
returns `(price - avg_price) * qty`, credits `price * qty`, appends a
SELL trade record and deletes the position.  There is no action-label
argument: the appended record is always tagged `"SELL"`. -/
def PaperBroker.sell (b : PaperBroker) (symbol : String) (price : ℚ) :
    ℚ × PaperBroker :=
  match b.positions.lookup symbol with
  | none => (0, b)
  | some pos =>
      let pnl := (price - pos.avg_price) * pos.qty
      (pnl,
       { balance := b.balance + price * pos.qty
         positions := b.positions.filter fun p => p.1 != symbol
         trades := b.trades ++ [Trade.sellRec symbol price pos.qty pnl] })

/-- The SMA crossover strategy parameters (`src/strategy/sma_crossover.py`).
The signal history kept by the base class is not consulted by the
replay loop and is omitted. -/
structure SMACrossoverStrategy where
  fast_period : ℕ
  slow_period : ℕ
deriving DecidableEq, Repr

/-- `SMACrossoverStrategy.__init__` (`src/strategy/sma_crossover.py`
lines 30-33): stores the two periods.  The source constructor contains
no validation branch and cannot fail. -/
def SMACrossoverStrategy.init (fast_period slow_period : ℕ) :
    SMACrossoverStrategy :=
  ⟨fast_period, slow_period⟩

/-- `SMACrossoverStrategy.set_parameters` (`src/strategy/sma_crossover.py`
lines 89-98): overwrites whichever of the two periods is supplied, then
raises `ValueError` when `fast_period >= slow_period`, modelled as
`Except.error`. -/
def SMACrossoverStrategy.set_parameters (st : SMACrossoverStrategy)
    (fast? slow? : Option ℕ) : Except String SMACrossoverStrategy :=
  let st' : SMACrossoverStrategy :=
    ⟨fast?.getD st.fast_period, slow?.getD st.slow_period⟩
  if st'.fast_period ≥ st'.slow_period then
    Except.error "fast_period must be less than slow_period"
  else Except.ok st'

/-- The last entry of `df["close"].rolling(n).mean()`: the mean of the
trailing `n` closes, or `none` (NaN) when the window is shorter than
`n` rows (or `n = 0`, which pandas rejects). -/
def rollingMeanLast (n : ℕ) (closes : List ℚ) : Option ℚ :=
  if n = 0 ∨ closes.length < n then none
  else some ((closes.drop (closes.length - n)).sum / n)

/-- Strict `<` on possibly-undefined rolling means; a comparison against
NaN is false, as in pandas. -/
def oLT (a b : Option ℚ) : Bool :=
  match a, b with
  | some x, some y => decide (x < y)
  | _, _ => false

/-- Non-strict `≤` on possibly-undefined rolling means; a comparison
against NaN is false, as in pandas. -/
def oLE (a b : Option ℚ) : Bool :=
  match a, b with
  | some x, some y => decide (x ≤ y)
  | _, _ => false

/-- `SMACrossoverStrategy.generate_signal` (`src/strategy/sma_crossover.py`
lines 35-76), applied to the `close` column of the window.  The
`validate_dataframe` guard (presence of the `close` column) is outside
the embedding: a window is modelled by its close column. -/
def SMACrossoverStrategy.generate_signal (st : SMACrossoverStrategy)
    (closes : List ℚ) : String :=
  if closes.length < st.slow_period + 1 then "HOLD"
  else
    let fast_now := rollingMeanLast st.fast_period closes
    let slow_now := rollingMeanLast st.slow_period closes
    let prev := closes.dropLast
    let fast_prev := rollingMeanLast st.fast_period prev
    let slow_prev := rollingMeanLast st.slow_period prev
    if oLT slow_now fast_now && oLE fast_prev slow_prev then "BUY"
    else if oLT fast_now slow_now && oLE slow_prev fast_prev then "SELL"
    else "HOLD"

/-- `SMACrossoverStrategy.get_required_periods`
(`src/strategy/sma_crossover.py` lines 78-80). -/
def SMACrossoverStrategy.get_required_periods (st : SMACrossoverStrategy) :
    ℕ :=
  st.slow_period + 1

/-- The value of the trailing `n`-row simple moving average when it is
defined: `(sum of the last n closes) / n`. -/
def smaVal (n : ℕ) (closes : List ℚ) : ℚ :=
  (closes.drop (closes.length - n)).sum / n

/-- The risk-guard decision for one open position (`src/core/backtester.py`
lines 105-112 and `check_sl_tp` in `src/main.py`): stop-loss when
`price ≤ avg_price * (1 - sl)`, else take-profit when
`price ≥ avg_price * (1 + tp)`, else nothing. -/
def riskCheck (sl tp : ℚ) (avg_price price : ℚ) : Option String :=
  if price ≤ avg_price * (1 - sl) then some "STOP-LOSS"
  else if price ≥ avg_price * (1 + tp) then some "TAKE-PROFIT"
  else none

/-- One row of the external trade-log CSV, as written by
`log_trade_csv(action, symbol, price, qty, pnl)`; the timestamp column
is wall-clock time and is omitted. -/
structure CsvRow where
  action : String
  symbol : String
  price : ℚ
  qty : ℚ
  pnl : ℚ
deriving DecidableEq, Repr

/-- Observable events of one replay-loop iteration, in execution order:
the call to `strategy.generate_signal`, each risk-guard
`broker.sell`, and the strategy-driven trade execution. -/
inductive Event where
  | evalSignal
  | riskSell (label symbol : String)
  | stratBuy (success : Bool)
  | stratSell (pnl : ℚ)
deriving DecidableEq, Repr

/-- Whether an event is a risk-guard ledger sell. -/
def Event.isRiskSell : Event → Bool
  | .riskSell _ _ => true
  | _ => false

/-- Whether an event is a strategy-driven trade execution. -/
def Event.isStratTrade : Event → Bool
  | .stratBuy _ => true
  | .stratSell _ => true
  | _ => false

/-- The stop-loss / take-profit pass of one replay iteration
(`src/core/backtester.py` lines 103-112): iterates over a snapshot of
the positions taken before the pass, sells each triggered position and
writes a CSV row tagged with the triggering label and the snapshot
quantity.  The broker is threaded through; the snapshot is not. -/
def riskPass (sl tp price : ℚ) :
    PaperBroker → List (String × Position) →
      PaperBroker × List CsvRow × List Event
  | b, [] => (b, [], [])
  | b, (pos_symbol, pos) :: rest =>
    match riskCheck sl tp pos.avg_price price with
    | some label =>
        let r := b.sell pos_symbol price
        let t := riskPass sl tp price r.2 rest
        (t.1,
         ⟨label, pos_symbol, price, pos.qty, r.1⟩ :: t.2.1,
         Event.riskSell label pos_symbol :: t.2.2)
    | none => riskPass sl tp price b rest

/-- Result of one replay-loop iteration: the broker afterwards, the CSV
rows written during the iteration, and the ordered event trace. -/
structure StepResult where
  broker : PaperBroker
  rows : List CsvRow
  events : List Event
deriving DecidableEq, Repr

/-- The body of one replay-loop iteration after the signal has been
computed (`src/core/backtester.py` lines 95-128): the risk-guard pass
runs on the current positions, then a BUY signal attempts
`broker.buy` (logging a CSV row only on success), a SELL signal calls
`broker.sell` and logs a CSV row only when the returned pnl is truthy
(`if pnl:`), with the configured `qty` in the qty column.  The event
trace records that the signal evaluation precedes the risk pass. -/
def stepCore (signal symbol : String) (price qty sl tp : ℚ)
    (b : PaperBroker) : StepResult :=
  let risk := riskPass sl tp price b b.positions
  let b1 := risk.1
  if signal = "BUY" then
    let r := b1.buy symbol price qty
    { broker := r.2
      rows := risk.2.1 ++ (if r.1 then [⟨"BUY", symbol, price, qty, 0⟩] else [])
      events := Event.evalSignal :: (risk.2.2 ++ [Event.stratBuy r.1]) }
  else if signal = "SELL" then
    let r := b1.sell symbol price
    { broker := r.2
      rows := risk.2.1 ++
        (if r.1 ≠ 0 then [⟨"SELL", symbol, price, qty, r.1⟩] else [])
      events := Event.evalSignal :: (risk.2.2 ++ [Event.stratSell r.1]) }
  else
    { broker := b1
      rows := risk.2.1
      events := Event.evalSignal :: risk.2.2 }

/-- One full iteration of the `backtest` loop (`src/core/backtester.py`
lines 93-128): the signal is computed from the causal window by
`strategy.generate_signal`, the price is the last close of the window,
and the body `stepCore` runs. -/
def backtestStep (st : SMACrossoverStrategy) (window : List ℚ)
    (symbol : String) (qty sl tp : ℚ) (b : PaperBroker) : StepResult :=
  stepCore (st.generate_signal window) symbol (window.getLastD 0) qty sl tp b

/-- Fold a list of `(price, qty)` fills through `PaperBroker.buy` on a
fixed symbol. -/
def applyBuys (s : String) : PaperBroker → List (ℚ × ℚ) → PaperBroker
  | b, [] => b
  | b, (p, q) :: rest => applyBuys s (b.buy s p q).2 rest

/-- Whether every buy in the fill sequence succeeds (its cost fits the
balance current at the time of the call). -/
def allBuysSucceed (s : String) : PaperBroker → List (ℚ × ℚ) → Bool
  | _, [] => true
  | b, (p, q) :: rest =>
      decide (p * q ≤ b.balance) && allBuysSucceed s (b.buy s p q).2 rest

/-- Total quantity of a fill sequence. -/
def sumQty (fills : List (ℚ × ℚ)) : ℚ := (fills.map Prod.snd).sum

/-- Total cost of a fill sequence. -/
def sumCost (fills : List (ℚ × ℚ)) : ℚ := (fills.map fun f => f.1 * f.2).sum

/-! ### Helper lemmas on association lists -/

theorem lookup_cons (k k' : String) (v : Position)
    (t : List (String × Position)) :
    (((k', v) :: t).lookup k) = if k = k' then some v else t.lookup k := by
  by_cases h : k = k'
  · subst h; simp [List.lookup]
  · simp only [List.lookup, beq_eq_false_iff_ne.mpr h, if_neg h]

theorem lookup_append_left_none {l l' : List (String × Position)} {k : String}
    (h : l.lookup k = none) : (l ++ l').lookup k = l'.lookup k := by
  induction l with
  | nil => rfl
  | cons a t ih =>
      obtain ⟨k', v⟩ := a
      rw [lookup_cons] at h
      by_cases hk : k = k'
      · simp [hk] at h
      · rw [if_neg hk] at h
        rw [List.cons_append, lookup_cons, if_neg hk]
        exact ih h

theorem filter_ne_of_lookup_none {l : List (String × Position)} {k : String}
    (h : l.lookup k = none) : (l.filter fun p => p.1 != k) = l := by
  induction l with
  | nil => rfl
  | cons a t ih =>
      obtain ⟨k', v⟩ := a
      rw [lookup_cons] at h
      by_cases hk : k = k'
      · simp [hk] at h
      · rw [if_neg hk] at h
        rw [List.filter_cons]
        simp only [bne_iff_ne, ne_eq, Ne.symm hk, not_false_eq_true,
          if_true, decide_not]
        rw [ih h]

theorem lookup_filter_ne {l : List (String × Position)} {k : String} :
    ((l.filter fun p => p.1 != k).lookup k) = none := by
  induction l with
  | nil => rfl
  | cons a t ih =>
      obtain ⟨k', v⟩ := a
      rw [List.filter_cons]
      by_cases hk : k' = k
      · simp only [hk, bne_self_eq_false, Bool.false_eq_true, if_false]
        exact ih
      · simp only [bne_iff_ne, ne_eq, hk, not_false_eq_true, if_true]
        rw [lookup_cons, if_neg (Ne.symm hk)]
        exact ih

theorem lookup_map_overwrite {l : List (String × Position)} {k : String}
    {v : Position} :
    ((l.map fun p => if p.1 == k then (k, v) else p).lookup k) =
      (l.lookup k).map fun _ => v := by
  induction l with
  | nil => rfl
  | cons a t ih =>
      obtain ⟨k', w⟩ := a
      by_cases hk : k' = k
      · subst hk
        rw [List.map_cons]
        simp only [beq_self_eq_true, if_true]
        rw [lookup_cons, if_pos rfl, lookup_cons, if_pos rfl]
        simp
      · rw [List.map_cons]
        simp only [beq_eq_false_iff_ne.mpr hk, Bool.false_eq_true, if_false]
        rw [lookup_cons, if_neg (Ne.symm hk), lookup_cons,
          if_neg (Ne.symm hk)]
        exact ih

/-! ### Equation lemmas for the broker operations -/

theorem buy_of_insufficient (b : PaperBroker) (s : String) (p q : ℚ)
    (h : p * q > b.balance) : b.buy s p q = (false, b) := by
  simp [PaperBroker.buy, h]

theorem buy_flat (b : PaperBroker) (s : String) (p q : ℚ)
    (hok : ¬ p * q > b.balance) (hflat : b.positions.lookup s = none) :
    b.buy s p q =
      (true,
       ⟨b.balance - p * q, b.positions ++ [(s, ⟨q, p⟩)],
        b.trades ++ [Trade.buyRec s p q]⟩) := by
  simp [PaperBroker.buy, hok, hflat]

theorem buy_held (b : PaperBroker) (s : String) (p q : ℚ) (pos : Position)
    (hok : ¬ p * q > b.balance) (hpos : b.positions.lookup s = some pos) :
    b.buy s p q =
      (true,
       ⟨b.balance - p * q,
        b.positions.map fun x =>
          if x.1 == s then
            (s, ⟨pos.qty + q,
                 (pos.qty * pos.avg_price + q * p) / (pos.qty + q)⟩)
          else x,
        b.trades ++ [Trade.buyRec s p q]⟩) := by
  simp [PaperBroker.buy, hok, hpos]

theorem sell_of_flat (b : PaperBroker) (s : String) (p : ℚ)
    (h : b.positions.lookup s = none) : b.sell s p = (0, b) := by
  simp [PaperBroker.sell, h]

theorem sell_of_held (b : PaperBroker) (s : String) (p : ℚ) (pos : Position)
    (h : b.positions.lookup s = some pos) :
    b.sell s p =
      ((p - pos.avg_price) * pos.qty,
       ⟨b.balance + p * pos.qty,
        b.positions.filter fun x => x.1 != s,
        b.trades ++
          [Trade.sellRec s p pos.qty ((p - pos.avg_price) * pos.qty)]⟩) := by
  simp [PaperBroker.sell, h]

/-! ### Claim theorems -/

/-- Claim C1: for a ledger with `cash_balance ≥ 0` and a buy with
`price > 0`, `qty > 0`: if `price*qty > cash_balance` the call returns
`False` and leaves the whole state unchanged; otherwise it returns
`True` and debits the balance by exactly `price*qty`, leaving it
nonnegative.  In either case the balance never goes below zero. -/
theorem C1_buy_never_negative (b : PaperBroker) (s : String) (p q : ℚ)
    (hb : 0 ≤ b.balance) (hp : 0 < p) (hq : 0 < q) :
    (p * q > b.balance → b.buy s p q = (false, b)) ∧
    (p * q ≤ b.balance →
      (b.buy s p q).1 = true ∧
      (b.buy s p q).2.balance = b.balance - p * q ∧
      0 ≤ (b.buy s p q).2.balance) ∧
    0 ≤ (b.buy s p q).2.balance := by
  by_cases h : p * q > b.balance
  · refine ⟨fun _ => buy_of_insufficient b s p q h, fun hle => absurd hle (not_le.mpr h), ?_⟩
    rw [buy_of_insufficient b s p q h]
    exact hb
  · have hle : p * q ≤ b.balance := not_lt.mp h
    have hbal : (b.buy s p q).2.balance = b.balance - p * q := by
      rcases hpos : b.positions.lookup s with _ | pos
      · rw [buy_flat b s p q h hpos]
      · rw [buy_held b s p q pos h hpos]
    have htrue : (b.buy s p q).1 = true := by
      rcases hpos : b.positions.lookup s with _ | pos
      · rw [buy_flat b s p q h hpos]
      · rw [buy_held b s p q pos h hpos]
    have hnn : 0 ≤ (b.buy s p q).2.balance := by
      rw [hbal]; linarith
    exact ⟨fun hgt => absurd hgt h, fun _ => ⟨htrue, hbal, hnn⟩, hnn⟩

/-- Witness for C1 at a concrete input. -/
theorem C1_buy_never_negative_witness :
    (0 ≤ (1000 : ℚ) ∧ 0 < (10 : ℚ) ∧ 0 < (5 : ℚ)) ∧
    (((10 : ℚ) * 5 > 1000 →
        PaperBroker.buy ⟨1000, [], []⟩ "X" 10 5 = (false, ⟨1000, [], []⟩)) ∧
     ((10 : ℚ) * 5 ≤ 1000 →
        (PaperBroker.buy ⟨1000, [], []⟩ "X" 10 5).1 = true ∧
        (PaperBroker.buy ⟨1000, [], []⟩ "X" 10 5).2.balance = 1000 - 10 * 5 ∧
        0 ≤ (PaperBroker.buy ⟨1000, [], []⟩ "X" 10 5).2.balance) ∧
     0 ≤ (PaperBroker.buy ⟨1000, [], []⟩ "X" 10 5).2.balance) :=
  ⟨⟨by norm_num, by norm_num, by norm_num⟩,
   C1_buy_never_negative ⟨1000, [], []⟩ "X" 10 5 (by norm_num) (by norm_num)
     (by norm_num)⟩

/-- Claim C3: the risk guard fires STOP-LOSS iff
`price ≤ entry * (1 - sl)`, and otherwise fires TAKE-PROFIT iff
`price ≥ entry * (1 + tp)`; for `0 < sl,tp < 1` the two trigger
conditions are mutually exclusive; with `sl = 0.02` and `entry = 100`
the stop-loss fires at `98` but not at `98.01`. -/
theorem C3_risk_guard_thresholds (entry price sl tp : ℚ)
    (hentry : 0 < entry) :
    (riskCheck sl tp entry price = some "STOP-LOSS" ↔
      price ≤ entry * (1 - sl)) ∧
    (¬ price ≤ entry * (1 - sl) →
      (riskCheck sl tp entry price = some "TAKE-PROFIT" ↔
        price ≥ entry * (1 + tp))) ∧
    (0 < sl → sl < 1 → 0 < tp → tp < 1 →
      ¬ (price ≤ entry * (1 - sl) ∧ price ≥ entry * (1 + tp))) ∧
    riskCheck (1/50) tp 100 98 = some "STOP-LOSS" ∧
    riskCheck (1/50) tp 100 (9801/100) ≠ some "STOP-LOSS" := by
  refine ⟨?_, ?_, ?_, ?_, ?_⟩
  · by_cases hsl : price ≤ entry * (1 - sl)
    · simp [riskCheck, hsl]
    · simp only [riskCheck, if_neg hsl]
      constructor
      · intro h
        split at h <;> simp_all
      · intro h; exact absurd h hsl
  · intro hsl
    simp only [riskCheck, if_neg hsl]
    by_cases htp : price ≥ entry * (1 + tp)
    · simp [htp]
    · simp [htp]
  · intro hsl1 _ htp1 _ h
    obtain ⟨h1, h2⟩ := h
    have : entry * (1 + tp) ≤ entry * (1 - sl) := le_trans h2 h1
    nlinarith [mul_pos hentry htp1, mul_pos hentry hsl1]
  · norm_num [riskCheck]
  · norm_num [riskCheck]
    exact fun _ => by decide

/-- Witness for C3 at `entry = 100`, `price = 98`, `sl = 1/50`,
`tp = 1/25`. -/
theorem C3_risk_guard_thresholds_witness :
    (0 : ℚ) < 100 ∧
    ((riskCheck (1/50) (1/25) 100 98 = some "STOP-LOSS" ↔
        (98 : ℚ) ≤ 100 * (1 - 1/50)) ∧
     (¬ (98 : ℚ) ≤ 100 * (1 - 1/50) →
       (riskCheck (1/50) (1/25) 100 98 = some "TAKE-PROFIT" ↔
         (98 : ℚ) ≥ 100 * (1 + 1/25))) ∧
     (0 < (1/50 : ℚ) → (1/50 : ℚ) < 1 → 0 < (1/25 : ℚ) → (1/25 : ℚ) < 1 →
       ¬ ((98 : ℚ) ≤ 100 * (1 - 1/50) ∧ (98 : ℚ) ≥ 100 * (1 + 1/25))) ∧
     riskCheck (1/50) (1/25) 100 98 = some "STOP-LOSS" ∧
     riskCheck (1/50) (1/25) 100 (9801/100) ≠ some "STOP-LOSS") :=
  ⟨by norm_num,
   C3_risk_guard_thresholds 100 98 (1/50) (1/25) (by norm_num)⟩

/-- Counterexample to Claim C6: the constructor of
`SMACrossoverStrategy` contains no validation and cannot fail, so
constructing with `fast_period = 20 ≥ 5 = slow_period` succeeds and
yields an instance that violates `fast_period < slow_period`. -/
theorem C6_counterexample :
    SMACrossoverStrategy.init 20 5 =
      { fast_period := 20, slow_period := 5 } ∧
    ¬ (SMACrossoverStrategy.init 20 5).fast_period <
        (SMACrossoverStrategy.init 20 5).slow_period := by
  constructor
  · rfl
  · decide

/-- Claim C6 amended: construction stores the given periods without any
validation (so an instance with `fast_period ≥ slow_period` can
exist); reconfiguring through `set_parameters` fails with an error
exactly when the resulting `fast_period ≥ slow_period`, and every
strategy returned by a successful `set_parameters` satisfies
`fast_period < slow_period`. -/
theorem C6_amended_validation (st : SMACrossoverStrategy)
    (fast? slow? : Option ℕ) :
    (∀ f s, SMACrossoverStrategy.init f s =
      { fast_period := f, slow_period := s }) ∧
    ((∃ e, st.set_parameters fast? slow? = Except.error e) ↔
      slow?.getD st.slow_period ≤ fast?.getD st.fast_period) ∧
    (∀ st', st.set_parameters fast? slow? = Except.ok st' →
      st'.fast_period < st'.slow_period) := by
  refine ⟨fun f s => rfl, ?_, ?_⟩
  · by_cases h : slow?.getD st.slow_period ≤ fast?.getD st.fast_period
    · simp [SMACrossoverStrategy.set_parameters, h]
    · simp [SMACrossoverStrategy.set_parameters, h]
  · intro st' h
    simp only [SMACrossoverStrategy.set_parameters] at h
    split at h
    · exact Except.noConfusion h
    · next hge =>
        cases h
        exact Nat.lt_of_not_le hge

/-- Witness for C6 amended at a concrete instance and reconfiguration. -/
theorem C6_amended_validation_witness :
    (∀ f s, SMACrossoverStrategy.init f s =
      { fast_period := f, slow_period := s }) ∧
    ((∃ e, SMACrossoverStrategy.set_parameters ⟨5, 20⟩ (some 3) none =
        Except.error e) ↔
      (none : Option ℕ).getD 20 ≤ (some 3).getD 5) ∧
    (∀ st', SMACrossoverStrategy.set_parameters ⟨5, 20⟩ (some 3) none =
        Except.ok st' →
      st'.fast_period < st'.slow_period) :=
  C6_amended_validation ⟨5, 20⟩ (some 3) none

/-- Claim C8: buying a flat symbol and immediately selling it at the
same price succeeds, returns pnl exactly `0`, restores the cash
balance exactly, and leaves the symbol flat (indeed leaves the
positions map equal to what it was before the buy). -/
theorem C8_round_trip (b : PaperBroker) (s : String) (p q : ℚ)
    (hflat : b.positions.lookup s = none) (hp : 0 < p) (hq : 0 < q)
    (hcost : p * q ≤ b.balance) :
    (b.buy s p q).1 = true ∧
    ((b.buy s p q).2.sell s p).1 = 0 ∧
    ((b.buy s p q).2.sell s p).2.balance = b.balance ∧
    ((b.buy s p q).2.sell s p).2.positions = b.positions ∧
    ((b.buy s p q).2.sell s p).2.positions.lookup s = none := by
  have hok : ¬ p * q > b.balance := not_lt.mpr hcost
  rw [buy_flat b s p q hok hflat]
  have hlook :
      ((⟨b.balance - p * q, b.positions ++ [(s, ⟨q, p⟩)],
         b.trades ++ [Trade.buyRec s p q]⟩ : PaperBroker).positions.lookup
        s) = some ⟨q, p⟩ := by
    show ((b.positions ++ [(s, (⟨q, p⟩ : Position))]).lookup s) = _
    rw [lookup_append_left_none hflat, lookup_cons, if_pos rfl]
  rw [sell_of_held _ s p ⟨q, p⟩ hlook]
  have hfilter :
      ((b.positions ++ [(s, (⟨q, p⟩ : Position))]).filter
        fun x => x.1 != s) = b.positions := by
    rw [List.filter_append, filter_ne_of_lookup_none hflat]
    simp
  refine ⟨rfl, by ring_nf, by ring_nf, hfilter, lookup_filter_ne⟩

/-- Witness for C8 at a concrete round trip. -/
theorem C8_round_trip_witness :
    ((PaperBroker.positions ⟨100000, [], []⟩).lookup "X" = none ∧
      (0 : ℚ) < 100 ∧ (0 : ℚ) < 10 ∧ (100 : ℚ) * 10 ≤ 100000) ∧
    ((PaperBroker.buy ⟨100000, [], []⟩ "X" 100 10).1 = true ∧
     ((PaperBroker.buy ⟨100000, [], []⟩ "X" 100 10).2.sell "X" 100).1 = 0 ∧
     ((PaperBroker.buy ⟨100000, [], []⟩ "X" 100 10).2.sell "X" 100).2.balance
        = 100000 ∧
     ((PaperBroker.buy ⟨100000, [], []⟩ "X" 100 10).2.sell "X"
        100).2.positions = [] ∧
     ((PaperBroker.buy ⟨100000, [], []⟩ "X" 100 10).2.sell "X"
        100).2.positions.lookup "X" = none) :=
  ⟨⟨rfl, by norm_num, by norm_num, by norm_num⟩,
   C8_round_trip ⟨100000, [], []⟩ "X" 100 10 rfl (by norm_num) (by norm_num)
     (by norm_num)⟩

/-- Claim C10: selling an open position at exactly its average entry
price returns pnl `0` — the same value a sell with no open position
returns — while still crediting the balance, removing the position and
appending a trade record; and in the replay step the `if pnl:`
truthiness test then writes no CSV row for this successful close, so
the step treats it like a failed sell even though the ledger changed. -/
theorem C10_breakeven_sell (b : PaperBroker) (s : String) (pos : Position)
    (p qty sl tp : ℚ)
    (hpos : b.positions = [(s, pos)])
    (havg : pos.avg_price = p)
    (hp : 0 < p) (hsl : 0 < sl) (htp : 0 < tp) :
    (b.sell s p).1 = 0 ∧
    (b.sell s p).2.balance = b.balance + p * pos.qty ∧
    (b.sell s p).2.positions = [] ∧
    (∀ b' : PaperBroker, b'.positions.lookup s = none →
      (b'.sell s p).1 = 0 ∧ (b'.sell s p).2 = b') ∧
    (stepCore "SELL" s p qty sl tp b).rows = [] ∧
    (stepCore "SELL" s p qty sl tp b).broker.positions = [] ∧
    (stepCore "SELL" s p qty sl tp b).broker ≠ b := by
  have hlook : b.positions.lookup s = some pos := by
    rw [hpos, lookup_cons, if_pos rfl]
  have hsell := sell_of_held b s p pos hlook
  have h1 : (b.sell s p).1 = 0 := by rw [hsell]; simp [havg]
  have h2 : (b.sell s p).2.balance = b.balance + p * pos.qty := by
    rw [hsell]
  have h3 : (b.sell s p).2.positions = [] := by
    rw [hsell]
    show (b.positions.filter fun x => x.1 != s) = []
    rw [hpos]
    simp
  have hcheck : riskCheck sl tp pos.avg_price p = none := by
    have hc1 : ¬ p ≤ p * (1 - sl) := by nlinarith
    have hc2 : ¬ p ≥ p * (1 + tp) := by nlinarith
    simp [riskCheck, havg, hc1, hc2]
  have hrisk : riskPass sl tp p b b.positions = (b, [], []) := by
    rw [hpos]
    simp [riskPass, hcheck]
  have hstep : stepCore "SELL" s p qty sl tp b =
      { broker := (b.sell s p).2, rows := [],
        events := [Event.evalSignal, Event.stratSell 0] } := by
    unfold stepCore
    rw [hrisk]
    rw [if_neg (by decide : ¬ ("SELL" : String) = "BUY"), if_pos rfl]
    simp [h1]
  refine ⟨h1, h2, h3, ?_, ?_, ?_, ?_⟩
  · intro b' hb'
    rw [sell_of_flat b' s p hb']
    exact ⟨rfl, rfl⟩
  · rw [hstep]
  · rw [hstep]; exact h3
  · rw [hstep]
    intro heq
    have hcontra := h3
    rw [show (b.sell s p).2 = b from heq] at hcontra
    rw [hpos] at hcontra
    exact List.noConfusion hcontra

/-- Witness for C10 at a concrete breakeven close. -/
theorem C10_breakeven_sell_witness :
    ((PaperBroker.positions ⟨0, [("NIFTY", ⟨50, 90⟩)], []⟩ =
        [("NIFTY", ⟨50, 90⟩)]) ∧
      (Position.avg_price ⟨50, 90⟩ = 90) ∧
      (0 : ℚ) < 90 ∧ (0 : ℚ) < 1/50 ∧ (0 : ℚ) < 1/25) ∧
    ((PaperBroker.sell ⟨0, [("NIFTY", ⟨50, 90⟩)], []⟩ "NIFTY" 90).1 = 0 ∧
     (PaperBroker.sell ⟨0, [("NIFTY", ⟨50, 90⟩)], []⟩ "NIFTY" 90).2.balance
        = 0 + 90 * Position.qty ⟨50, 90⟩ ∧
     (PaperBroker.sell ⟨0, [("NIFTY", ⟨50, 90⟩)], []⟩ "NIFTY"
        90).2.positions = [] ∧
     (∀ b' : PaperBroker, b'.positions.lookup "NIFTY" = none →
       (b'.sell "NIFTY" 90).1 = 0 ∧ (b'.sell "NIFTY" 90).2 = b') ∧
     (stepCore "SELL" "NIFTY" 90 50 (1/50) (1/25)
        ⟨0, [("NIFTY", ⟨50, 90⟩)], []⟩).rows = [] ∧
     (stepCore "SELL" "NIFTY" 90 50 (1/50) (1/25)
        ⟨0, [("NIFTY", ⟨50, 90⟩)], []⟩).broker.positions = [] ∧
     (stepCore "SELL" "NIFTY" 90 50 (1/50) (1/25)
        ⟨0, [("NIFTY", ⟨50, 90⟩)], []⟩).broker ≠
          ⟨0, [("NIFTY", ⟨50, 90⟩)], []⟩) :=
  ⟨⟨rfl, rfl, by norm_num, by norm_num, by norm_num⟩,
   C10_breakeven_sell ⟨0, [("NIFTY", ⟨50, 90⟩)], []⟩ "NIFTY" ⟨50, 90⟩
     90 50 (1/50) (1/25) rfl rfl (by norm_num) (by norm_num) (by norm_num)⟩

theorem sumQty_nil : sumQty [] = 0 := rfl

theorem sumQty_cons (p q : ℚ) (rest : List (ℚ × ℚ)) :
    sumQty ((p, q) :: rest) = q + sumQty rest := by
  simp [sumQty]

theorem sumCost_cons (p q : ℚ) (rest : List (ℚ × ℚ)) :
    sumCost ((p, q) :: rest) = p * q + sumCost rest := by
  simp [sumCost]

/-- Folding further buys into a broker already holding `⟨Q, A⟩` in `s`
keeps the position equal to the running volume-weighted average. -/
theorem applyBuys_lookup_held (s : String) (fills : List (ℚ × ℚ)) :
    ∀ (b : PaperBroker) (Q A : ℚ),
      b.positions.lookup s = some ⟨Q, A⟩ → 0 < Q →
      (∀ f ∈ fills, 0 < f.2) →
      allBuysSucceed s b fills = true →
      (applyBuys s b fills).positions.lookup s =
        some ⟨Q + sumQty fills,
              (Q * A + sumCost fills) / (Q + sumQty fills)⟩ := by
  induction fills with
  | nil =>
      intro b Q A hlook hQ _ _
      show b.positions.lookup s = _
      rw [hlook, sumQty_nil]
      have : sumCost ([] : List (ℚ × ℚ)) = 0 := rfl
      rw [this, add_zero, add_zero, mul_div_cancel_left₀ A (ne_of_gt hQ)]
  | cons f rest ih =>
      obtain ⟨p, q⟩ := f
      intro b Q A hlook hQ hqpos hsucc
      rw [allBuysSucceed, Bool.and_eq_true, decide_eq_true_eq] at hsucc
      obtain ⟨hle, hsucc2⟩ := hsucc
      have hq0 : 0 < q := hqpos (p, q) (List.mem_cons_self _ _)
      have hok : ¬ p * q > b.balance := not_lt.mpr hle
      have hbuy := buy_held b s p q ⟨Q, A⟩ hok hlook
      have hlook' : (b.buy s p q).2.positions.lookup s =
          some ⟨Q + q, (Q * A + q * p) / (Q + q)⟩ := by
        rw [hbuy]
        show ((b.positions.map fun x =>
            if x.1 == s then
              (s, ⟨(⟨Q, A⟩ : Position).qty + q,
                   ((⟨Q, A⟩ : Position).qty * (⟨Q, A⟩ : Position).avg_price +
                     q * p) / ((⟨Q, A⟩ : Position).qty + q)⟩)
            else x).lookup s) = _
        rw [lookup_map_overwrite, hlook]
        rfl
      have hQq : (0 : ℚ) < Q + q := add_pos hQ hq0
      have hrec := ih (b.buy s p q).2 (Q + q) ((Q * A + q * p) / (Q + q))
        hlook' hQq (fun f hf => hqpos f (List.mem_cons_of_mem _ hf)) hsucc2
      rw [applyBuys, hrec]
      have hcancel : (Q + q) * ((Q * A + q * p) / (Q + q)) = Q * A + q * p :=
        by field_simp
      rw [hcancel, sumQty_cons, sumCost_cons]
      simp only [Option.some.injEq, Position.mk.injEq]
      constructor
      · ring
      · congr 1 <;> ring

/-- Claim C2: after any nonempty sequence of successful buys on a
symbol that starts flat, the stored average entry price is the
volume-weighted mean `sumCost / sumQty` of exactly those fills;
history before the symbol last went flat cannot contribute because the
position entry is the only carried state. -/
theorem C2_volume_weighted_average (b : PaperBroker) (s : String)
    (fills : List (ℚ × ℚ))
    (hflat : b.positions.lookup s = none)
    (hq : ∀ f ∈ fills, 0 < f.2)
    (hsucc : allBuysSucceed s b fills = true)
    (hne : fills ≠ []) :
    (applyBuys s b fills).positions.lookup s =
      some ⟨sumQty fills, sumCost fills / sumQty fills⟩ := by
  cases fills with
  | nil => exact absurd rfl hne
  | cons f rest =>
      obtain ⟨p, q⟩ := f
      rw [allBuysSucceed, Bool.and_eq_true, decide_eq_true_eq] at hsucc
      obtain ⟨hle, hsucc2⟩ := hsucc
      have hq0 : 0 < q := hq (p, q) (List.mem_cons_self _ _)
      have hok : ¬ p * q > b.balance := not_lt.mpr hle
      have hbuy := buy_flat b s p q hok hflat
      have hlook' : (b.buy s p q).2.positions.lookup s = some ⟨q, p⟩ := by
        rw [hbuy]
        show ((b.positions ++ [(s, (⟨q, p⟩ : Position))]).lookup s) = _
        rw [lookup_append_left_none hflat, lookup_cons, if_pos rfl]
      rw [applyBuys]
      rw [applyBuys_lookup_held s rest (b.buy s p q).2 q p hlook' hq0
        (fun f hf => hq f (List.mem_cons_of_mem _ hf)) hsucc2]
      rw [sumQty_cons, sumCost_cons]
      simp only [Option.some.injEq, Position.mk.injEq]
      exact ⟨trivial, by rw [mul_comm q p]⟩

/-- Witness for C2: two buys, 10 shares at 100 then 10 at 200, give an
average entry price of `3000 / 20 = 150`. -/
theorem C2_volume_weighted_average_witness :
    ((PaperBroker.positions ⟨100000, [], []⟩).lookup "X" = none ∧
      (∀ f ∈ [((100 : ℚ), (10 : ℚ)), (200, 10)], 0 < f.2) ∧
      allBuysSucceed "X" ⟨100000, [], []⟩ [(100, 10), (200, 10)] = true ∧
      ([((100 : ℚ), (10 : ℚ)), (200, 10)] ≠ [])) ∧
    (applyBuys "X" ⟨100000, [], []⟩ [(100, 10), (200, 10)]).positions.lookup
        "X" =
      some ⟨sumQty [(100, 10), (200, 10)],
            sumCost [(100, 10), (200, 10)] / sumQty [(100, 10), (200, 10)]⟩ :=
  ⟨⟨rfl, by norm_num, by norm_num [allBuysSucceed, PaperBroker.buy], by simp⟩,
   C2_volume_weighted_average ⟨100000, [], []⟩ "X" [(100, 10), (200, 10)] rfl
     (by norm_num) (by norm_num [allBuysSucceed, PaperBroker.buy]) (by simp)⟩

theorem rollingMeanLast_eq_some (n : ℕ) (l : List ℚ) (hn : 0 < n)
    (hle : n ≤ l.length) : rollingMeanLast n l = some (smaVal n l) := by
  rw [rollingMeanLast, if_neg (by push_neg; exact ⟨hn.ne', hle⟩)]
  rfl

/-- With enough data and valid periods, `generate_signal` reduces to the
crossover test on the defined moving-average values. -/
theorem generate_signal_characterization (st : SMACrossoverStrategy)
    (closes : List ℚ) (hfast : 0 < st.fast_period)
    (hlt : st.fast_period < st.slow_period)
    (h : st.slow_period + 1 ≤ closes.length) :
    st.generate_signal closes =
      (if smaVal st.slow_period closes < smaVal st.fast_period closes ∧
          smaVal st.fast_period closes.dropLast ≤
            smaVal st.slow_period closes.dropLast then "BUY"
       else if smaVal st.fast_period closes < smaVal st.slow_period closes ∧
          smaVal st.slow_period closes.dropLast ≤
            smaVal st.fast_period closes.dropLast then "SELL"
       else "HOLD") := by
  have hnl : ¬ closes.length < st.slow_period + 1 := not_lt.mpr h
  have hslow0 : 0 < st.slow_period := lt_trans hfast hlt
  have e1 := rollingMeanLast_eq_some st.fast_period closes hfast (by omega)
  have e2 := rollingMeanLast_eq_some st.slow_period closes hslow0 (by omega)
  have e3 := rollingMeanLast_eq_some st.fast_period closes.dropLast hfast
    (by rw [List.length_dropLast]; omega)
  have e4 := rollingMeanLast_eq_some st.slow_period closes.dropLast hslow0
    (by rw [List.length_dropLast]; omega)
  rw [SMACrossoverStrategy.generate_signal, if_neg hnl]
  simp only [e1, e2, e3, e4, oLT, oLE, Bool.and_eq_true, decide_eq_true_eq]

/-- Claim C4: with fewer than `slow_period + 1` rows the signal is HOLD;
with enough rows the signal is BUY iff the fast average is strictly
above the slow one now and was at-or-below it on the previous row,
SELL iff strictly below now and at-or-above before, and HOLD in every
other case; the required warm-up period is `slow_period + 1`. -/
theorem C4_sma_crossover_signal (st : SMACrossoverStrategy)
    (closes : List ℚ) (hfast : 0 < st.fast_period)
    (hlt : st.fast_period < st.slow_period) :
    (closes.length < st.slow_period + 1 →
      st.generate_signal closes = "HOLD") ∧
    (st.slow_period + 1 ≤ closes.length →
      ((st.generate_signal closes = "BUY" ↔
          smaVal st.slow_period closes < smaVal st.fast_period closes ∧
          smaVal st.fast_period closes.dropLast ≤
            smaVal st.slow_period closes.dropLast) ∧
       (st.generate_signal closes = "SELL" ↔
          smaVal st.fast_period closes < smaVal st.slow_period closes ∧
          smaVal st.slow_period closes.dropLast ≤
            smaVal st.fast_period closes.dropLast) ∧
       (st.generate_signal closes = "HOLD" ↔
          ¬ (smaVal st.slow_period closes < smaVal st.fast_period closes ∧
             smaVal st.fast_period closes.dropLast ≤
               smaVal st.slow_period closes.dropLast) ∧
          ¬ (smaVal st.fast_period closes < smaVal st.slow_period closes ∧
             smaVal st.slow_period closes.dropLast ≤
               smaVal st.fast_period closes.dropLast)))) ∧
    st.get_required_periods = st.slow_period + 1 := by
  refine ⟨?_, ?_, rfl⟩
  · intro h
    rw [SMACrossoverStrategy.generate_signal, if_pos h]
  · intro h
    have hsig := generate_signal_characterization st closes hfast hlt h
    by_cases hPB : smaVal st.slow_period closes < smaVal st.fast_period closes ∧
        smaVal st.fast_period closes.dropLast ≤
          smaVal st.slow_period closes.dropLast
    · have hnPS : ¬ (smaVal st.fast_period closes <
            smaVal st.slow_period closes ∧
          smaVal st.slow_period closes.dropLast ≤
            smaVal st.fast_period closes.dropLast) :=
        fun hPS => absurd hPS.1 (lt_asymm hPB.1)
      rw [hsig, if_pos hPB]
      refine ⟨iff_of_true rfl hPB, ?_, ?_⟩
      · exact iff_of_false (by decide) hnPS
      · exact iff_of_false (by decide) (fun hc => hc.1 hPB)
    · by_cases hPS : smaVal st.fast_period closes <
          smaVal st.slow_period closes ∧
          smaVal st.slow_period closes.dropLast ≤
            smaVal st.fast_period closes.dropLast
      · rw [hsig, if_neg hPB, if_pos hPS]
        refine ⟨iff_of_false (by decide) hPB, iff_of_true rfl hPS, ?_⟩
        exact iff_of_false (by decide) (fun hc => hc.2 hPS)
      · rw [hsig, if_neg hPB, if_neg hPS]
        exact ⟨iff_of_false (by decide) hPB,
          iff_of_false (by decide) hPS, iff_of_true rfl ⟨hPB, hPS⟩⟩

/-- Witness for C4 at `fast = 1`, `slow = 2`, closes `[100, 100, 110]`
(a BUY crossover window). -/
theorem C4_sma_crossover_signal_witness :
    (0 < SMACrossoverStrategy.fast_period ⟨1, 2⟩ ∧
      SMACrossoverStrategy.fast_period ⟨1, 2⟩ <
        SMACrossoverStrategy.slow_period ⟨1, 2⟩) ∧
    (([(100 : ℚ), 100, 110].length <
        SMACrossoverStrategy.slow_period ⟨1, 2⟩ + 1 →
      SMACrossoverStrategy.generate_signal ⟨1, 2⟩ [100, 100, 110] =
        "HOLD") ∧
     (SMACrossoverStrategy.slow_period ⟨1, 2⟩ + 1 ≤
        [(100 : ℚ), 100, 110].length →
      ((SMACrossoverStrategy.generate_signal ⟨1, 2⟩ [100, 100, 110] =
          "BUY" ↔
          smaVal 2 [100, 100, 110] < smaVal 1 [100, 100, 110] ∧
          smaVal 1 (List.dropLast [(100 : ℚ), 100, 110]) ≤
            smaVal 2 (List.dropLast [(100 : ℚ), 100, 110])) ∧
       (SMACrossoverStrategy.generate_signal ⟨1, 2⟩ [100, 100, 110] =
          "SELL" ↔
          smaVal 1 [100, 100, 110] < smaVal 2 [100, 100, 110] ∧
          smaVal 2 (List.dropLast [(100 : ℚ), 100, 110]) ≤
            smaVal 1 (List.dropLast [(100 : ℚ), 100, 110])) ∧
       (SMACrossoverStrategy.generate_signal ⟨1, 2⟩ [100, 100, 110] =
          "HOLD" ↔
          ¬ (smaVal 2 [100, 100, 110] < smaVal 1 [100, 100, 110] ∧
             smaVal 1 (List.dropLast [(100 : ℚ), 100, 110]) ≤
               smaVal 2 (List.dropLast [(100 : ℚ), 100, 110])) ∧
          ¬ (smaVal 1 [100, 100, 110] < smaVal 2 [100, 100, 110] ∧
             smaVal 2 (List.dropLast [(100 : ℚ), 100, 110]) ≤
               smaVal 1 (List.dropLast [(100 : ℚ), 100, 110]))))) ∧
     SMACrossoverStrategy.get_required_periods ⟨1, 2⟩ =
       SMACrossoverStrategy.slow_period ⟨1, 2⟩ + 1) :=
  ⟨⟨by norm_num, by norm_num⟩,
   C4_sma_crossover_signal ⟨1, 2⟩ [100, 100, 110] (by norm_num)
     (by norm_num)⟩

theorem Event.not_strat_of_risk {e : Event} (h : e.isRiskSell = true) :
    e.isStratTrade = false := by
  cases e <;> simp_all [Event.isRiskSell, Event.isStratTrade]

theorem Event.not_risk_of_strat {e : Event} (h : e.isStratTrade = true) :
    e.isRiskSell = false := by
  cases e <;> simp_all [Event.isRiskSell, Event.isStratTrade]

/-- Every event emitted by the risk pass is a risk-guard sell. -/
theorem riskPass_events_risk (sl tp price : ℚ) :
    ∀ (snapshot : List (String × Position)) (b : PaperBroker),
      ∀ e ∈ (riskPass sl tp price b snapshot).2.2, e.isRiskSell = true := by
  intro snapshot
  induction snapshot with
  | nil => intro b e he; simp [riskPass] at he
  | cons a rest ih =>
      intro b e he
      obtain ⟨sym, pos⟩ := a
      rw [riskPass] at he
      rcases hcheck : riskCheck sl tp pos.avg_price price with _ | label
      · rw [hcheck] at he
        exact ih _ e he
      · rw [hcheck] at he
        simp only [List.mem_cons] at he
        rcases he with rfl | he
        · rfl
        · exact ih _ e he

/-- The event trace of a replay step is the signal evaluation, then the
risk-pass events, then a (possibly empty) strategy-trade suffix. -/
theorem stepCore_events_shape (signal symbol : String) (price qty sl tp : ℚ)
    (b : PaperBroker) :
    ∃ tail, (stepCore signal symbol price qty sl tp b).events =
        Event.evalSignal ::
          ((riskPass sl tp price b b.positions).2.2 ++ tail) ∧
      ∀ e ∈ tail, e.isStratTrade = true := by
  unfold stepCore
  by_cases hB : signal = "BUY"
  · rw [if_pos hB]
    exact ⟨[Event.stratBuy _], rfl, by simp [Event.isStratTrade]⟩
  · rw [if_neg hB]
    by_cases hS : signal = "SELL"
    · rw [if_pos hS]
      exact ⟨[Event.stratSell _], rfl, by simp [Event.isStratTrade]⟩
    · rw [if_neg hS]
      exact ⟨[], by simp, by simp⟩

/-- Counterexample to Claim C5: in the replay step, the strategy signal
is evaluated first and the risk-guard sell is invoked only afterwards.
Concretely, with an open position at entry 100, stop-loss 2%, and a
window ending at 98 (which also produces a SELL crossover), the step's
trace starts with the signal evaluation and the risk-guard sell comes
second, so the sell is not invoked before the signal evaluation. -/
theorem C5_counterexample :
    (backtestStep ⟨1, 2⟩ [100, 100, 98] "X" 1 (1/50) (1/25)
        ⟨1000, [("X", ⟨1, 100⟩)], []⟩).events =
      [Event.evalSignal, Event.riskSell "STOP-LOSS" "X",
       Event.stratSell 0] ∧
    (backtestStep ⟨1, 2⟩ [100, 100, 98] "X" 1 (1/50) (1/25)
        ⟨1000, [("X", ⟨1, 100⟩)], []⟩).events.head? =
      some Event.evalSignal := by
  have h : (backtestStep ⟨1, 2⟩ [100, 100, 98] "X" 1 (1/50) (1/25)
      ⟨1000, [("X", ⟨1, 100⟩)], []⟩).events =
      [Event.evalSignal, Event.riskSell "STOP-LOSS" "X",
       Event.stratSell 0] := by
    norm_num [backtestStep, stepCore, riskPass, riskCheck,
      SMACrossoverStrategy.generate_signal, rollingMeanLast, oLT, oLE,
      PaperBroker.sell, PaperBroker.buy, List.lookup, List.filter,
      List.getLastD, smaVal]
    rw [if_neg (by decide : ¬ ("SELL" : String) = "BUY")]
  exact ⟨h, by rw [h]; rfl⟩

/-- Claim C5 amended: within one replay step, every risk-guard ledger
sell precedes every strategy-driven trade execution (the risk exits
are applied to the ledger before the signal's buy/sell executes), even
though the signal itself is computed before the risk pass.  Stated as:
in the step's trace, the ledger-trade events filter into the risk
sells followed by the strategy trades. -/
theorem C5_amended_risk_exits_before_strategy_trades
    (signal symbol : String) (price qty sl tp : ℚ) (b : PaperBroker) :
    ((stepCore signal symbol price qty sl tp b).events.filter
        fun e => e.isRiskSell || e.isStratTrade) =
      ((stepCore signal symbol price qty sl tp b).events.filter
        Event.isRiskSell) ++
      ((stepCore signal symbol price qty sl tp b).events.filter
        Event.isStratTrade) := by
  obtain ⟨tail, hev, htail⟩ :=
    stepCore_events_shape signal symbol price qty sl tp b
  have hall := riskPass_events_risk sl tp price b.positions b
  have hEvsOr : ((riskPass sl tp price b b.positions).2.2.filter
      fun e => e.isRiskSell || e.isStratTrade) =
      (riskPass sl tp price b b.positions).2.2 :=
    List.filter_eq_self.mpr fun e he => by rw [hall e he, Bool.true_or]
  have hEvsRisk : ((riskPass sl tp price b b.positions).2.2.filter
      Event.isRiskSell) = (riskPass sl tp price b b.positions).2.2 :=
    List.filter_eq_self.mpr hall
  have hEvsStrat : ((riskPass sl tp price b b.positions).2.2.filter
      Event.isStratTrade) = [] := by
    rw [List.filter_eq_nil]
    intro e he
    rw [Event.not_strat_of_risk (hall e he)]
    simp
  have hTailOr : (tail.filter fun e => e.isRiskSell || e.isStratTrade) =
      tail :=
    List.filter_eq_self.mpr fun e he => by rw [htail e he, Bool.or_true]
  have hTailRisk : tail.filter Event.isRiskSell = [] := by
    rw [List.filter_eq_nil]
    intro e he
    rw [Event.not_risk_of_strat (htail e he)]
    simp
  have hTailStrat : tail.filter Event.isStratTrade = tail :=
    List.filter_eq_self.mpr htail
  have h1 : (Event.evalSignal.isRiskSell || Event.evalSignal.isStratTrade) =
      false := rfl
  have h2 : Event.evalSignal.isRiskSell = false := rfl
  have h3 : Event.evalSignal.isStratTrade = false := rfl
  rw [hev]
  simp only [List.filter_cons, List.filter_append, h1, h2, h3,
    Bool.false_eq_true, if_false]
  rw [hEvsOr, hEvsRisk, hEvsStrat, hTailOr, hTailRisk, hTailStrat]
  simp

theorem buy_trades_mem (b : PaperBroker) (s : String) (p q : ℚ) :
    ∀ t ∈ (b.buy s p q).2.trades, t ∈ b.trades ∨ t.action = "BUY" := by
  intro t ht
  by_cases h : p * q > b.balance
  · rw [buy_of_insufficient b s p q h] at ht
    exact Or.inl ht
  · have : (b.buy s p q).2.trades = b.trades ++ [Trade.buyRec s p q] := by
      simp [PaperBroker.buy, h]
    rw [this, List.mem_append] at ht
    rcases ht with ht | ht
    · exact Or.inl ht
    · simp only [List.mem_singleton] at ht
      exact Or.inr (ht ▸ rfl)

theorem sell_trades_mem (b : PaperBroker) (s : String) (p : ℚ) :
    ∀ t ∈ (b.sell s p).2.trades, t ∈ b.trades ∨ t.action = "SELL" := by
  intro t ht
  rcases hlook : b.positions.lookup s with _ | pos
  · rw [sell_of_flat b s p hlook] at ht
    exact Or.inl ht
  · rw [sell_of_held b s p pos hlook] at ht
    simp only at ht
    rw [List.mem_append] at ht
    rcases ht with ht | ht
    · exact Or.inl ht
    · simp only [List.mem_singleton] at ht
      exact Or.inr (ht ▸ rfl)

theorem riskPass_trades_mem (sl tp price : ℚ) :
    ∀ (snapshot : List (String × Position)) (b : PaperBroker),
      ∀ t ∈ (riskPass sl tp price b snapshot).1.trades,
        t ∈ b.trades ∨ t.action = "SELL" := by
  intro snapshot
  induction snapshot with
  | nil => intro b t ht; exact Or.inl ht
  | cons a rest ih =>
      intro b t ht
      obtain ⟨sym, pos⟩ := a
      rw [riskPass] at ht
      rcases hcheck : riskCheck sl tp pos.avg_price price with _ | label
      · rw [hcheck] at ht
        exact ih b t ht
      · rw [hcheck] at ht
        simp only at ht
        rcases ih (b.sell sym price).2 t ht with h | h
        · exact sell_trades_mem b sym price t h
        · exact Or.inr h

theorem riskCheck_label {sl tp a p : ℚ} {label : String}
    (h : riskCheck sl tp a p = some label) :
    label = "STOP-LOSS" ∨ label = "TAKE-PROFIT" := by
  unfold riskCheck at h
  split_ifs at h <;> simp_all

theorem riskPass_rows_labels (sl tp price : ℚ) :
    ∀ (snapshot : List (String × Position)) (b : PaperBroker),
      ∀ r ∈ (riskPass sl tp price b snapshot).2.1,
        r.action = "STOP-LOSS" ∨ r.action = "TAKE-PROFIT" := by
  intro snapshot
  induction snapshot with
  | nil => intro b r hr; simp [riskPass] at hr
  | cons a rest ih =>
      intro b r hr
      obtain ⟨sym, pos⟩ := a
      rw [riskPass] at hr
      rcases hcheck : riskCheck sl tp pos.avg_price price with _ | label
      · rw [hcheck] at hr
        exact ih b r hr
      · rw [hcheck] at hr
        simp only [List.mem_cons] at hr
        rcases hr with rfl | hr
        · exact riskCheck_label hcheck
        · exact ih (b.sell sym price).2 r hr

/-- Counterexample to Claim C7: a risk-guard-driven close does not
appear in the ledger history as STOP-LOSS.  With one open position at
entry 100 and price 98 (2% stop-loss triggered, signal HOLD), the
ledger trade appended by the close carries action `"SELL"`, while only
the external CSV row carries `"STOP-LOSS"`. -/
theorem C7_counterexample :
    ((stepCore "HOLD" "X" 98 1 (1/50) (1/25)
        ⟨1000, [("X", ⟨2, 100⟩)], []⟩).broker.trades.map Trade.action) =
      ["SELL"] ∧
    ((stepCore "HOLD" "X" 98 1 (1/50) (1/25)
        ⟨1000, [("X", ⟨2, 100⟩)], []⟩).rows.map CsvRow.action) =
      ["STOP-LOSS"] ∧
    ("SELL" : String) ≠ "STOP-LOSS" := by
  have hstep : stepCore "HOLD" "X" 98 1 (1/50) (1/25)
      ⟨1000, [("X", ⟨2, 100⟩)], []⟩ =
      { broker := ⟨1196, [], [Trade.sellRec "X" 98 2 (-4)]⟩,
        rows := [⟨"STOP-LOSS", "X", 98, 2, -4⟩],
        events := [Event.evalSignal, Event.riskSell "STOP-LOSS" "X"] } := by
    norm_num [stepCore, riskPass, riskCheck, PaperBroker.sell, List.lookup,
      List.filter]
    rw [if_neg (by decide : ¬ ("HOLD" : String) = "BUY"),
      if_neg (by decide : ¬ ("HOLD" : String) = "SELL")]
  rw [hstep]
  exact ⟨rfl, rfl, by decide⟩

/-- Claim C7 amended: the ledger's `sell` has no action-label argument
and always appends a record tagged `"SELL"`; the caller-supplied
STOP-LOSS / TAKE-PROFIT label appears only in the external CSV rows,
and the ledger history's action field ranges over `{BUY, SELL}`
only. -/
theorem C7_amended_ledger_actions (b : PaperBroker)
    (signal symbol : String) (price qty sl tp : ℚ)
    (hb : ∀ t ∈ b.trades, t.action = "BUY" ∨ t.action = "SELL") :
    (∀ t ∈ (stepCore signal symbol price qty sl tp b).broker.trades,
      t.action = "BUY" ∨ t.action = "SELL") ∧
    (∀ r ∈ (riskPass sl tp price b b.positions).2.1,
      r.action = "STOP-LOSS" ∨ r.action = "TAKE-PROFIT") ∧
    (∀ (b' : PaperBroker) (s' : String) (p' : ℚ) (pos : Position),
      b'.positions.lookup s' = some pos →
      (b'.sell s' p').2.trades =
        b'.trades ++
          [Trade.sellRec s' p' pos.qty ((p' - pos.avg_price) * pos.qty)] ∧
      Trade.action
        (Trade.sellRec s' p' pos.qty ((p' - pos.avg_price) * pos.qty)) =
          "SELL") := by
  refine ⟨?_, riskPass_rows_labels sl tp price b.positions b, ?_⟩
  · have hrisk : ∀ t ∈ (riskPass sl tp price b b.positions).1.trades,
        t.action = "BUY" ∨ t.action = "SELL" := by
      intro t ht
      rcases riskPass_trades_mem sl tp price b.positions b t ht with h | h
      · exact hb t h
      · exact Or.inr h
    intro t ht
    unfold stepCore at ht
    by_cases hB : signal = "BUY"
    · rw [if_pos hB] at ht
      simp only at ht
      rcases buy_trades_mem _ symbol price qty t ht with h | h
      · exact hrisk t h
      · exact Or.inl h
    · rw [if_neg hB] at ht
      by_cases hS : signal = "SELL"
      · rw [if_pos hS] at ht
        simp only at ht
        rcases sell_trades_mem _ symbol price t ht with h | h
        · exact hrisk t h
        · exact Or.inr h
      · rw [if_neg hS] at ht
        exact hrisk t ht
  · intro b' s' p' pos hlook
    rw [sell_of_held b' s' p' pos hlook]
    exact ⟨rfl, rfl⟩

/-- Witness for C7 amended on a broker with an empty history. -/
theorem C7_amended_ledger_actions_witness :
    (∀ t ∈ PaperBroker.trades ⟨1000, [("X", ⟨2, 100⟩)], []⟩,
      Trade.action t = "BUY" ∨ Trade.action t = "SELL") ∧
    ((∀ t ∈ (stepCore "HOLD" "X" 98 1 (1/50) (1/25)
        ⟨1000, [("X", ⟨2, 100⟩)], []⟩).broker.trades,
      t.action = "BUY" ∨ t.action = "SELL") ∧
    (∀ r ∈ (riskPass (1/50) (1/25) 98 ⟨1000, [("X", ⟨2, 100⟩)], []⟩
        (PaperBroker.positions ⟨1000, [("X", ⟨2, 100⟩)], []⟩)).2.1,
      r.action = "STOP-LOSS" ∨ r.action = "TAKE-PROFIT") ∧
    (∀ (b' : PaperBroker) (s' : String) (p' : ℚ) (pos : Position),
      b'.positions.lookup s' = some pos →
      (b'.sell s' p').2.trades =
        b'.trades ++
          [Trade.sellRec s' p' pos.qty ((p' - pos.avg_price) * pos.qty)] ∧
      Trade.action
        (Trade.sellRec s' p' pos.qty ((p' - pos.avg_price) * pos.qty)) =
          "SELL")) :=
  ⟨by simp,
   C7_amended_ledger_actions ⟨1000, [("X", ⟨2, 100⟩)], []⟩ "HOLD" "X"
     98 1 (1/50) (1/25) (by simp)⟩

/-- Claim C9, evaluated at the failing input: a breakeven
strategy-driven sell (position of 50 at average 90, SELL crossover
window closing at 90) mutates the ledger — position removed, balance
credited 4500, a trade record appended — yet writes no CSV row,
because the replay loop tests the returned pnl for truthiness. -/
theorem C9_breakeven_mutation_logs_no_row :
    (backtestStep ⟨1, 2⟩ [100, 100, 90] "NIFTY" 50 (1/50) (1/25)
        ⟨0, [("NIFTY", ⟨50, 90⟩)], []⟩).rows = [] ∧
    (backtestStep ⟨1, 2⟩ [100, 100, 90] "NIFTY" 50 (1/50) (1/25)
        ⟨0, [("NIFTY", ⟨50, 90⟩)], []⟩).broker.balance = 4500 ∧
    (backtestStep ⟨1, 2⟩ [100, 100, 90] "NIFTY" 50 (1/50) (1/25)
        ⟨0, [("NIFTY", ⟨50, 90⟩)], []⟩).broker.positions = [] ∧
    (backtestStep ⟨1, 2⟩ [100, 100, 90] "NIFTY" 50 (1/50) (1/25)
        ⟨0, [("NIFTY", ⟨50, 90⟩)], []⟩).broker.trades =
      [Trade.sellRec "NIFTY" 90 50 0] := by
  have hstep : backtestStep ⟨1, 2⟩ [100, 100, 90] "NIFTY" 50 (1/50) (1/25)
      ⟨0, [("NIFTY", ⟨50, 90⟩)], []⟩ =
      { broker := ⟨4500, [], [Trade.sellRec "NIFTY" 90 50 0]⟩,
        rows := [],
        events := [Event.evalSignal, Event.stratSell 0] } := by
    norm_num [backtestStep, stepCore, riskPass, riskCheck,
      SMACrossoverStrategy.generate_signal, rollingMeanLast, oLT, oLE,
      PaperBroker.sell, PaperBroker.buy, List.lookup, List.filter,
      List.getLastD, smaVal]
    decide
  rw [hstep]
  exact ⟨rfl, rfl, rfl, rfl⟩
